import Mathlib

/-
  Verification development for the Rust-HiRAG repository: a shallow
  embedding in Lean 4 of the tiered context cache and retrieval pipeline
  (validation middleware, circuit breaker, embedding client, ranker,
  retriever and the enhanced manager), together with theorems settling
  the specification claims about those components.

  Modelling conventions, used throughout:
  * Rust `usize`/`u64` counters become `Nat`; `i64` timestamps become `Int`.
  * `f32` scores, weights and ranking arithmetic become `ℝ`; `f32`
    configuration fractions that only feed integer budget arithmetic
    (allocations, token estimation) become `ℚ` with explicit floor/ceil,
    which agrees with the Rust truncation on the inputs considered here.
  * Text (`&str`) is a `List Char`; byte lengths are UTF-8 byte sums.
  * `Uuid` identifiers become `Nat`.
  * `serde_json::Value` metadata values are modelled as `Int` (the core
    only ever reads them through `as_u64`); a metadata map is an
    association list `List (String × Int)`.
  * `Instant` / wall-clock values are explicit `Nat` (monotonic clock for
    the breaker) or `Int` (epoch seconds) parameters.
  * External effects (the embedding HTTP API, the vector-database
    backend) are inputs: an HTTP exchange is a scripted `ApiOutcome`,
    vector-store collections are in-memory lists of points and search
    results are given as data.
-/

namespace HiRAG

/-! ## Basic data model (src/vector_db/models.rs, src/hirag/models.rs) -/

/-- Context level of an item: Immediate (L1), ShortTerm (L2), LongTerm (L3). -/
inductive ContextLevel : Type
  | immediate
  | shortTerm
  | longTerm
deriving DecidableEq, Repr

/-- Context item as handled by the HiRAG manager (src/hirag/models.rs,
struct `Context`). The `relevance_score` (an `f32` in the source)
is modelled as a real number. -/
structure Context : Type where
  id : Nat
  text : List Char
  level : ContextLevel
  relevance_score : ℝ
  token_count : Nat
  timestamp : Int
  metadata : List (String × Int)

/-- Stored payload of a vector point (src/vector_db/models.rs, struct
`Payload`). -/
structure Payload : Type where
  text : List Char
  level : ContextLevel
  timestamp : Int
  agent_id : String
  session_id : Option String
  metadata : List (String × Int)
deriving DecidableEq

/-- A point in a vector-store collection (src/vector_db/models.rs, struct
`VectorPoint`); the embedding vector is a list of rationals standing for
the `Vec<f32>`. -/
structure VectorPoint : Type where
  id : Nat
  vector : List ℚ
  payload : Payload
deriving DecidableEq

/-- A search hit returned by the vector store (src/vector_db/models.rs,
struct `SearchResult`); the similarity score is real-valued, the payload
is present only when requested. -/
structure SearchResult : Type where
  id : Nat
  score : ℝ
  payload : Option Payload

/-! ## Association-list helpers for metadata and the embedding cache -/

/-- Lookup in an association list; models `HashMap::get` /
`moka::Cache::get` keyed by a string. -/
def lookupKV {α : Type} (l : List (String × α)) (k : String) : Option α :=
  match l with
  | [] => none
  | p :: rest => if p.1 == k then some p.2 else lookupKV rest k

/-- Insert-or-replace in an association list; models `HashMap::insert` /
`moka::Cache::insert` (an existing key is overwritten in place, a new key
is appended). -/
def insertKV {α : Type} (l : List (String × α)) (k : String) (v : α) :
    List (String × α) :=
  match l with
  | [] => [(k, v)]
  | p :: rest => if p.1 == k then (k, v) :: rest else p :: insertKV rest k v

/-! ## Input validation (src/middleware/validator.rs) -/

/-- Validation errors (src/middleware/validator.rs, enum
`ValidationError`); only the variants reachable from the embedded
operations are modelled. -/
inductive ValidationError : Type
  | emptyInput
  | textTooLong (length max_length : Nat)
  | invalidCharacters
  | invalidTokenCount
  | tokenLimitExceeded (count max : Nat)
  | invalidVectorDimension (actual expected : Nat)
  | emptyMetadataKey
  | metadataKeyTooLong (length max_length : Nat)
  | invalidMetadataKey
deriving DecidableEq, Repr

/-- Rust `char::is_whitespace`: the Unicode White_Space property,
enumerated code point by code point. -/
def rust_is_whitespace (c : Char) : Bool :=
  let n := c.val.toNat
  (decide (0x09 ≤ n) && decide (n ≤ 0x0D)) || n == 0x20 || n == 0x85 ||
    n == 0xA0 || n == 0x1680 ||
    (decide (0x2000 ≤ n) && decide (n ≤ 0x200A)) ||
    n == 0x2028 || n == 0x2029 || n == 0x202F || n == 0x205F || n == 0x3000

/-- Rust `char::is_control`: the Unicode Cc category
(U+0000..U+001F and U+007F..U+009F). -/
def rust_is_control (c : Char) : Bool :=
  let n := c.val.toNat
  decide (n ≤ 0x1F) || (decide (0x7F ≤ n) && decide (n ≤ 0x9F))

/-- Rust `str::trim`: strip leading and trailing White_Space characters. -/
def rust_trim (l : List Char) : List Char :=
  ((l.dropWhile rust_is_whitespace).reverse.dropWhile rust_is_whitespace).reverse

/-- UTF-8 byte length of a text, modelling Rust `str::len`. -/
def utf8_len (l : List Char) : Nat :=
  (l.map (fun c => c.utf8Size)).sum

/-- Maximum text length in bytes (src/middleware/validator.rs,
`MAX_TEXT_LENGTH`). -/
def MAX_TEXT_LENGTH : Nat := 8192

/-- InputValidator::validate_text: reject when the trimmed text is empty,
when the byte length exceeds 8192, or when a control character that is
not whitespace occurs. -/
def validate_text (text : List Char) : Except ValidationError Unit :=
  if (rust_trim text).isEmpty then .error .emptyInput
  else if MAX_TEXT_LENGTH < utf8_len text then
    .error (.textTooLong (utf8_len text) MAX_TEXT_LENGTH)
  else if text.any (fun c => rust_is_control c && !(rust_is_whitespace c)) then
    .error .invalidCharacters
  else .ok ()

/-- InputValidator::validate_token_count: zero is rejected, then counts
above the given maximum are rejected. -/
def validate_token_count (count max : Nat) : Except ValidationError Unit :=
  if count = 0 then .error .invalidTokenCount
  else if max < count then .error (.tokenLimitExceeded count max)
  else .ok ()

/-- Rust `char::is_alphanumeric`, restricted to ASCII as used by every
metadata key in this development (the source predicate is Unicode-aware;
all concrete keys below are ASCII, where both agree). -/
def rust_is_alphanumeric (c : Char) : Bool :=
  c.isAlphanum

/-- InputValidator::validate_metadata_key: nonempty, at most 256 bytes,
alphanumeric plus underscore and hyphen. -/
def validate_metadata_key (key : String) : Except ValidationError Unit :=
  if key.isEmpty then .error .emptyMetadataKey
  else if 256 < key.utf8ByteSize then
    .error (.metadataKeyTooLong key.utf8ByteSize 256)
  else if !(key.toList.all (fun c => rust_is_alphanumeric c || c == '_' || c == '-')) then
    .error .invalidMetadataKey
  else .ok ()

/-- InputValidator::validate_vector_dimension: the embedding length must
equal the expected dimension. -/
def validate_vector_dimension (actual expected : Nat) :
    Except ValidationError Unit :=
  if actual ≠ expected then .error (.invalidVectorDimension actual expected)
  else .ok ()

/-! ## Error taxonomy (src/error/mod.rs) -/

/-- Embedding-related errors (src/error/mod.rs, enum `EmbeddingError`);
message payloads are carried as strings where the claims depend on them. -/
inductive EmbeddingError : Type
  | apiError (msg : String)
  | networkError
  | authenticationFailed
  | serviceUnavailable (msg : String)
deriving DecidableEq, Repr

/-- HiRAG operation errors (src/error/mod.rs, enum `HiRAGError`).
Note that the enum has a dedicated `ContextNotFound` variant next to the
generic `StorageError`. -/
inductive HiRAGError : Type
  | contextNotFound (msg : String)
  | invalidLevel (msg : String)
  | retrievalError (msg : String)
  | storageError (msg : String)
  | rankingError (msg : String)
deriving DecidableEq, Repr

/-- Top-level error type (src/error/mod.rs, enum `ContextError`),
restricted to the branches the embedded operations can produce. -/
inductive ContextError : Type
  | embedding (e : EmbeddingError)
  | hirag (e : HiRAGError)
  | validation (e : ValidationError)
deriving DecidableEq, Repr

/-! ## Circuit breaker (src/vector_db/circuit_breaker.rs) -/

/-- Circuit breaker state (enum `CircuitState`). -/
inductive CircuitState : Type
  | closed
  | opened
  | halfOpen
deriving DecidableEq, Repr

/-- Circuit breaker configuration (struct `CircuitBreakerConfig`); the
`Duration` fields become abstract non-negative time units. `window_size`
is carried for fidelity but, as in the source, never read. -/
structure CircuitBreakerConfig : Type where
  failure_threshold : Nat
  success_threshold : Nat
  timeout : Nat
  window_size : Nat
deriving DecidableEq, Repr

/-- Mutable state of a `CircuitBreaker` (the `state`, `failure_count`,
`success_count`, `last_failure_time`, `total_calls`, `total_failures`
fields). `last_failure_time` is the monotonic instant recorded when the
circuit opened. -/
structure CircuitBreakerState : Type where
  state : CircuitState
  failure_count : Nat
  success_count : Nat
  last_failure_time : Option Nat
  total_calls : Nat
  total_failures : Nat
deriving DecidableEq, Repr

/-- Initial breaker state (`CircuitBreaker::new`). -/
def CircuitBreaker.new : CircuitBreakerState :=
  { state := .closed, failure_count := 0, success_count := 0,
    last_failure_time := none, total_calls := 0, total_failures := 0 }

/-- CircuitBreaker::allow_request at monotonic time `now`: counts the
call; Closed admits, Open admits (and transitions to HalfOpen, clearing
the success count) only once `timeout` has elapsed since the recorded
failure time, HalfOpen admits. -/
def allow_request (cfg : CircuitBreakerConfig) (now : Nat)
    (s : CircuitBreakerState) : Bool × CircuitBreakerState :=
  let s := { s with total_calls := s.total_calls + 1 }
  match s.state with
  | .closed => (true, s)
  | .opened =>
    match s.last_failure_time with
    | some last_failure =>
      if cfg.timeout ≤ now - last_failure then
        (true, { s with state := .halfOpen, success_count := 0 })
      else (false, s)
    | none => (false, s)
  | .halfOpen => (true, s)

/-- CircuitBreaker::record_success: in Closed reset the failure count; in
HalfOpen count the success and close (clearing both counters) on reaching
the success threshold; in Open do nothing. -/
def record_success (cfg : CircuitBreakerConfig)
    (s : CircuitBreakerState) : CircuitBreakerState :=
  match s.state with
  | .closed => { s with failure_count := 0 }
  | .halfOpen =>
    let successes := s.success_count + 1
    if cfg.success_threshold ≤ successes then
      { s with state := .closed, failure_count := 0, success_count := 0 }
    else { s with success_count := successes }
  | .opened => s

/-- CircuitBreaker::record_failure at monotonic time `now`: counts the
failure; in Closed increment the consecutive-failure count and open
(recording `now`) on reaching the failure threshold; in HalfOpen reopen
(recording `now`, clearing the success count); in Open do nothing. -/
def record_failure (cfg : CircuitBreakerConfig) (now : Nat)
    (s : CircuitBreakerState) : CircuitBreakerState :=
  let s := { s with total_failures := s.total_failures + 1 }
  match s.state with
  | .closed =>
    let failures := s.failure_count + 1
    if cfg.failure_threshold ≤ failures then
      { s with state := .opened, failure_count := failures,
               last_failure_time := some now }
    else { s with failure_count := failures }
  | .halfOpen =>
    { s with state := .opened, last_failure_time := some now,
             success_count := 0 }
  | .opened => s

/-! ## Embedding client (src/embedding/client_v2.rs, src/embedding/cache.rs)

The HTTP exchanges of `make_request` are scripted: each attempt consumes
one `ApiOutcome` describing what `reqwest` and the server did. Backoff
sleeps have no observable effect in this model and are elided; the
monotonic clock `now` is held fixed within one call. -/

deriving instance DecidableEq for Except

/-- Outcome of a single HTTP attempt: a transport error (`Err(e)` from
`send()`), or a response with an HTTP status whose body parses to the
given embedding data (`none` models a JSON parse failure on a success
status; the body is ignored on error statuses). -/
inductive ApiOutcome : Type
  | transportError
  | http (status : Nat) (body : Option (List (List ℚ)))
deriving DecidableEq, Repr

/-- reqwest `StatusCode::is_success`: 2xx. -/
def status_is_success (status : Nat) : Bool :=
  decide (200 ≤ status) && decide (status < 300)

/-- Result of `make_request`: the parsed response data on success, the
breaker handle after the call, and how many HTTP requests were issued. -/
structure MakeRequestResult : Type where
  result : Except ContextError (List (List ℚ))
  breaker : Option CircuitBreakerState
  calls : Nat
deriving DecidableEq, Repr

/-- Retry loop of `EmbeddingClientV2::make_request`, starting at the given
attempt number. Each iteration consumes one scripted outcome; note that on
any transport-complete response the source records a success on the
breaker before inspecting the HTTP status, and records a failure
afterwards when the status is not 2xx or the body fails to parse.
An exhausted script behaves like a transport error without a request
(concrete runs always script every attempt). -/
def make_request_loop (cfg : CircuitBreakerConfig) (max_retries now : Nat) :
    Nat → Option CircuitBreakerState → List ApiOutcome → MakeRequestResult
  | _, cb, [] => ⟨.error (.embedding .networkError), cb, 0⟩
  | attempt, cb, outcome :: rest =>
    match outcome with
    | .transportError =>
      let cb := cb.map (record_failure cfg now)
      if attempt ≤ max_retries then
        let r := make_request_loop cfg max_retries now (attempt + 1) cb rest
        { r with calls := r.calls + 1 }
      else ⟨.error (.embedding .networkError), cb, 1⟩
    | .http status body =>
      let cb := cb.map (record_success cfg)
      if status_is_success status then
        match body with
        | some data => ⟨.ok data, cb, 1⟩
        | none =>
          let cb := cb.map (record_failure cfg now)
          if attempt ≤ max_retries then
            let r := make_request_loop cfg max_retries now (attempt + 1) cb rest
            { r with calls := r.calls + 1 }
          else ⟨.error (.embedding (.apiError "Failed to parse response")), cb, 1⟩
      else
        let cb := cb.map (record_failure cfg now)
        if status == 429 then
          if attempt ≤ max_retries then
            let r := make_request_loop cfg max_retries now (attempt + 1) cb rest
            { r with calls := r.calls + 1 }
          else ⟨.error (.embedding (.apiError ("API error " ++ toString status))), cb, 1⟩
        else if status == 401 then
          ⟨.error (.embedding .authenticationFailed), cb, 1⟩
        else if attempt ≤ max_retries then
          let r := make_request_loop cfg max_retries now (attempt + 1) cb rest
          { r with calls := r.calls + 1 }
        else ⟨.error (.embedding (.apiError ("API error " ++ toString status))), cb, 1⟩

/-- EmbeddingClientV2::make_request: consult the breaker's allow_request
once (when a breaker is configured) and fail fast with ServiceUnavailable
if denied; otherwise run the retry loop from attempt 1. -/
def make_request (cfg : CircuitBreakerConfig) (max_retries now : Nat)
    (cb : Option CircuitBreakerState) (outcomes : List ApiOutcome) :
    MakeRequestResult :=
  match cb with
  | some st =>
    let checked := allow_request cfg now st
    if checked.1 then
      make_request_loop cfg max_retries now 1 (some checked.2) outcomes
    else ⟨.error (.embedding (.serviceUnavailable "Circuit breaker open")),
          some checked.2, 0⟩
  | none => make_request_loop cfg max_retries now 1 none outcomes

/-- Cache key for a text (`EmbeddingClientV2::cache_key`):
`format!("emb_{:x}", sha256(text))`. The SHA-256 hex digest is abstracted
as the function `hash`; everything proved below depends only on the
`"emb_"` framing. -/
def cache_key (hash : String → String) (text : List Char) : String :=
  "emb_" ++ hash (String.mk text)

/-- Result of `embed_single`: the embedding vector (or an error), the
cache contents after the call (mirroring the `moka` cache as an
association list, valid while no eviction or expiry intervenes), the
breaker handle after the call, and how many HTTP requests were issued. -/
structure EmbedSingleResult : Type where
  result : Except ContextError (List ℚ)
  cache : Option (List (String × List ℚ))
  breaker : Option CircuitBreakerState
  calls : Nat
deriving DecidableEq, Repr

/-- EmbeddingClientV2::embed_single: validate, look the raw text up in
the cache (the source calls `cache.get(text)` with the unhashed text),
otherwise call the API via make_request, extract the first returned
embedding, and store it in the cache under `cache_key(text)`. -/
def embed_single (hash : String → String) (cfg : CircuitBreakerConfig)
    (max_retries now : Nat) (text : List Char)
    (cache : Option (List (String × List ℚ)))
    (cb : Option CircuitBreakerState) (outcomes : List ApiOutcome) :
    EmbedSingleResult :=
  match validate_text text with
  | .error e => ⟨.error (.validation e), cache, cb, 0⟩
  | .ok _ =>
    match cache.bind (fun c => lookupKV c (String.mk text)) with
    | some cached => ⟨.ok cached, cache, cb, 0⟩
    | none =>
      let key := cache_key hash text
      let r := make_request cfg max_retries now cb outcomes
      match r.result with
      | .error e => ⟨.error e, cache, r.breaker, r.calls⟩
      | .ok data =>
        match data.head? with
        | none => ⟨.error (.embedding (.apiError "No embedding in response")),
                   cache, r.breaker, r.calls⟩
        | some embedding =>
          let cache := cache.map (fun c => insertKV c key embedding)
          ⟨.ok embedding, cache, r.breaker, r.calls⟩

/-! ## Token estimator (src/hirag/token_estimator.rs) -/

/-- Token estimation strategy (config enum `TokenEstimator`); the `f32`
parameters become rationals. -/
inductive TokenEstimatorConfig : Type
  | characterBased (chars_per_token : ℚ)
  | wordBased (words_per_token : ℚ)
deriving DecidableEq

/-- Rust `str::split_whitespace().count()`: the number of maximal runs of
non-whitespace characters. -/
def word_count (l : List Char) : Nat :=
  (l.foldl
    (fun (acc : Nat × Bool) c =>
      if rust_is_whitespace c then (acc.1, false)
      else if acc.2 then acc else (acc.1 + 1, true))
    (0, false)).1

/-- TokenEstimator::estimate: ceiling of character count (resp. word
count) over the configured divisor. -/
def estimate (cfg : TokenEstimatorConfig) (text : List Char) : Nat :=
  match cfg with
  | .characterBased chars_per_token =>
    (⌈(text.length : ℚ) / chars_per_token⌉).toNat
  | .wordBased words_per_token =>
    (⌈(word_count text : ℚ) / words_per_token⌉).toNat

/-! ## Stable sorting

Rust `slice::sort_by` / `sort_by_key` are stable sorts. `stable_sort_by lt`
realises a stable sort for a strict comparator `lt` (`lt a b` means the
comparator orders `a` strictly before `b`): each element is inserted,
left to right, behind every already-placed element the comparator does
not order it strictly before. -/

/-- Insert `x` behind the longest prefix of elements it is not strictly
before. -/
def insert_by {α : Type} (lt : α → α → Bool) (x : α) : List α → List α
  | [] => [x]
  | y :: ys => if lt x y then x :: y :: ys else y :: insert_by lt x ys

/-- Stable sort by a strict comparator. -/
def stable_sort_by {α : Type} (lt : α → α → Bool) (l : List α) : List α :=
  l.foldl (fun acc x => insert_by lt x acc) []

/-! ## Context ranker (src/hirag/ranker.rs) -/

/-- Composite ranking weights (config struct `RankingWeights`); the `f32`
weights become reals. -/
structure RankingWeights : Type where
  similarity_weight : ℝ
  recency_weight : ℝ
  level_weight : ℝ
  frequency_weight : ℝ

/-- ContextRanker::calculate_recency_score: exponential decay
exp(-age_hours / 24) of the non-negative age. -/
noncomputable def calculate_recency_score (timestamp current_time : Int) : ℝ :=
  let age_seconds : ℝ := ((max (current_time - timestamp) 0 : Int) : ℝ)
  let age_hours := age_seconds / 3600
  Real.exp (-(age_hours / 24))

/-- ContextRanker::calculate_level_score: Immediate 1.0, ShortTerm 0.7,
LongTerm 0.5. -/
noncomputable def calculate_level_score : ContextLevel → ℝ
  | .immediate => 1
  | .shortTerm => 0.7
  | .longTerm => 0.5

/-- serde_json `Value::as_u64` on the integer-valued metadata model:
negative values (and, in the source, non-integers) yield `None`. -/
def json_as_u64 (v : Int) : Option Nat :=
  if v < 0 then none else some v.toNat

/-- Access count a context's metadata carries: the `"access_count"` entry
read through `as_u64`, defaulting to 0. -/
def access_count_of (c : Context) : Nat :=
  ((lookupKV c.metadata "access_count").bind json_as_u64).getD 0

/-- ContextRanker::calculate_frequency_score:
log10(1 + access_count) / log10(101) when the access count is positive,
else 0. There is no clamping in the source. -/
noncomputable def calculate_frequency_score (c : Context) : ℝ :=
  let access_count : ℝ := (access_count_of c : ℝ)
  if 0 < access_count then
    Real.logb 10 (1 + access_count) / Real.logb 10 101
  else 0

/-- ContextRanker::calculate_score: weighted linear blend of similarity
(the score already on the context), recency, level and frequency. -/
noncomputable def calculate_score (w : RankingWeights) (current_time : Int)
    (c : Context) : ℝ :=
  c.relevance_score * w.similarity_weight
    + calculate_recency_score c.timestamp current_time * w.recency_weight
    + calculate_level_score c.level * w.level_weight
    + calculate_frequency_score c * w.frequency_weight

/-- Comparator used by `rank_contexts`:
`b.relevance_score.partial_cmp(&a.relevance_score)` orders `a` strictly
before `b` exactly when `a`'s score is strictly greater (`NaN` does not
arise over ℝ; the source maps it to `Equal`). -/
noncomputable def score_lt (a b : Context) : Bool :=
  decide (b.relevance_score < a.relevance_score)

/-- ContextRanker::rank_contexts: overwrite each context's
`relevance_score` with the composite score, then stable-sort by
descending score. -/
noncomputable def rank_contexts (w : RankingWeights) (current_time : Int)
    (contexts : List Context) : List Context :=
  let scored := contexts.map
    (fun c => { c with relevance_score := calculate_score w current_time c })
  stable_sort_by score_lt scored

/-! ## Context retriever (src/hirag/retriever.rs) -/

/-- Retrieval strategy (config struct `RetrievalStrategy`): the fraction
of the token budget allotted to each level; the `f32` fractions become
rationals. -/
structure RetrievalStrategy : Type where
  l1_allocation : ℚ
  l2_allocation : ℚ
  l3_allocation : ℚ
deriving DecidableEq

/-- ContextRetriever::calculate_allocations: per-level budgets
`(max_tokens as f32 * allocation) as usize`; the float multiply-and-
truncate is modelled as the rational floor (they agree on the
non-negative inputs considered here). -/
def calculate_allocations (strategy : RetrievalStrategy)
    (max_tokens : Nat) : Nat × Nat × Nat :=
  ((⌊(max_tokens : ℚ) * strategy.l1_allocation⌋).toNat,
   (⌊(max_tokens : ℚ) * strategy.l2_allocation⌋).toNat,
   (⌊(max_tokens : ℚ) * strategy.l3_allocation⌋).toNat)

/-- ContextRetriever::calculate_dynamic_allocations: zero out the budget
of each level with no available contexts, pool those budgets, and add
`pool / active_levels` (integer division) to every level that has
contexts. -/
def calculate_dynamic_allocations (strategy : RetrievalStrategy)
    (max_tokens l1_available l2_available l3_available : Nat) :
    Nat × Nat × Nat :=
  let allocations := calculate_allocations strategy max_tokens
  let l1_tokens := allocations.1
  let l2_tokens := allocations.2.1
  let l3_tokens := allocations.2.2
  let unused_tokens := (if l1_available = 0 then l1_tokens else 0)
    + (if l2_available = 0 then l2_tokens else 0)
    + (if l3_available = 0 then l3_tokens else 0)
  let active_levels := (if l1_available = 0 then 0 else 1)
    + (if l2_available = 0 then 0 else 1)
    + (if l3_available = 0 then 0 else 1)
  let l1_tokens := if l1_available = 0 then 0 else l1_tokens
  let l2_tokens := if l2_available = 0 then 0 else l2_tokens
  let l3_tokens := if l3_available = 0 then 0 else l3_tokens
  if 0 < active_levels ∧ 0 < unused_tokens then
    let redistribution := unused_tokens / active_levels
    ((if l1_available = 0 then l1_tokens else l1_tokens + redistribution),
     (if l2_available = 0 then l2_tokens else l2_tokens + redistribution),
     (if l3_available = 0 then l3_tokens else l3_tokens + redistribution))
  else (l1_tokens, l2_tokens, l3_tokens)

/-- Budget-bounded harvest of `retrieve_from_level`: walk the search
results in returned order, skip hits without a payload, convert each hit
into a `Context` while the cumulative estimated tokens stay within the
budget, and stop at the first hit that would exceed it. -/
def retrieve_from_level_aux (est : TokenEstimatorConfig) (max_tokens : Nat) :
    Nat → List SearchResult → List Context
  | _, [] => []
  | total_tokens, r :: rest =>
    match r.payload with
    | none => retrieve_from_level_aux est max_tokens total_tokens rest
    | some payload =>
      let token_count := estimate est payload.text
      if total_tokens + token_count ≤ max_tokens then
        { id := r.id, text := payload.text, level := payload.level,
          relevance_score := r.score, token_count := token_count,
          timestamp := payload.timestamp, metadata := payload.metadata }
          :: retrieve_from_level_aux est max_tokens
              (total_tokens + token_count) rest
      else []

/-- ContextRetriever::retrieve_from_level, applied to the search results
the vector store returned for the level's collection (the search itself
is the external input). -/
def retrieve_from_level (est : TokenEstimatorConfig) (max_tokens : Nat)
    (results : List SearchResult) : List Context :=
  retrieve_from_level_aux est max_tokens 0 results

/-! ## HiRAG manager V2 (src/hirag/manager_v2.rs) -/

/-- HiRAGManagerV2::update_l1_cache: insert (or replace by id) the
context, then, if the cache exceeds `l1_size`, sort the entries by
ascending timestamp and remove the oldest surplus ids. The `DashMap` is
modelled as a list keyed by `id`, newest insertion first. -/
def update_l1_cache (l1_size : Nat) (cache : List Context)
    (context : Context) : List Context :=
  let cache := context :: cache.filter (fun c => c.id ≠ context.id)
  let current_size := cache.length
  if l1_size < current_size then
    let sorted := stable_sort_by
      (fun a b => decide (a.timestamp < b.timestamp)) cache
    let to_remove := ((sorted.take (current_size - l1_size)).map
      (fun c => c.id))
    cache.filter (fun c => c.id ∉ to_remove)
  else cache

/-- Greedy newest-first harvest of `get_l1_contexts`: accumulate contexts
while the cumulative token count stays within the budget, stopping at the
first context that would exceed it. -/
def l1_greedy_take (max_tokens : Nat) : Nat → List Context → List Context
  | _, [] => []
  | total_tokens, c :: rest =>
    if total_tokens + c.token_count ≤ max_tokens then
      c :: l1_greedy_take max_tokens (total_tokens + c.token_count) rest
    else []

/-- HiRAGManagerV2::get_l1_contexts: sort the cached contexts by
descending timestamp, then take greedily within the token budget. -/
def get_l1_contexts (cache : List Context) (max_tokens : Nat) :
    List Context :=
  l1_greedy_take max_tokens 0
    (stable_sort_by (fun a b => decide (b.timestamp < a.timestamp)) cache)

/-- HiRAGManagerV2::deduplicate_contexts: keep the first occurrence of
each id. -/
def deduplicate_aux (seen : List Nat) : List Context → List Context
  | [] => []
  | c :: rest =>
    if c.id ∈ seen then deduplicate_aux seen rest
    else c :: deduplicate_aux (c.id :: seen) rest

/-- Deduplicate contexts by id, first occurrence winning. -/
def deduplicate_contexts (contexts : List Context) : List Context :=
  deduplicate_aux [] contexts

/-- Final token-budget truncation of `retrieve_context`: fold over the
ranked contexts, keeping each one whose token count still fits the
remaining budget (contexts that do not fit are skipped, not a stopping
point), returning the kept contexts and their total token count. -/
def truncate_by_budget (max_tokens : Nat) (ranked : List Context) :
    List Context × Nat :=
  ranked.foldl
    (fun (acc : List Context × Nat) c =>
      if acc.2 + c.token_count ≤ max_tokens then
        (acc.1 ++ [c], acc.2 + c.token_count)
      else acc)
    ([], 0)

/-- Retrieval request (src/hirag/models.rs, struct `ContextRequest`);
`filters`, `priority` and `session_id` are pass-through fields that do
not influence the embedded pipeline and are omitted. -/
structure ContextRequest : Type where
  query : List Char
  max_tokens : Nat
  levels : List ContextLevel

/-- Retrieval response metadata (struct `ResponseMetadata`); the
level-distribution `HashMap` is modelled as its counting function. -/
structure ResponseMetadata : Type where
  level_distribution : ContextLevel → Nat
  avg_relevance : ℝ
  cache_hits : Nat
  total_searched : Nat

/-- Retrieval response (struct `ContextResponse`); the wall-clock
`retrieval_time_ms` field is not modelled. -/
structure ContextResponse : Type where
  contexts : List Context
  total_tokens : Nat
  metadata : ResponseMetadata

/-- HiRAGManagerV2::retrieve_context. External inputs: the query
embedding produced by the embedding client (only its success or failure
matters downstream), the current L1 cache contents, and the outcome of
the vector-store search for each non-L1 level (an `Except`, since a
tier's failure is tolerated). Validation, the static allocation split,
the L1 read, per-level budget harvests, partial-failure tolerance,
dedup, ranking and the final budget truncation follow the source. -/
noncomputable def retrieve_context (strategy : RetrievalStrategy)
    (w : RankingWeights) (est : TokenEstimatorConfig) (current_time : Int)
    (req : ContextRequest) (query_embedding : Except ContextError (List ℚ))
    (l1_cache : List Context)
    (l2_search l3_search : Except ContextError (List SearchResult)) :
    Except ContextError ContextResponse :=
  match validate_text req.query with
  | .error e => .error (.validation e)
  | .ok _ =>
  match validate_token_count req.max_tokens 100000 with
  | .error e => .error (.validation e)
  | .ok _ =>
  match query_embedding with
  | .error e => .error e
  | .ok _ =>
    let levels := if req.levels.isEmpty then
        [ContextLevel.immediate, ContextLevel.shortTerm, ContextLevel.longTerm]
      else req.levels
    let allocations := calculate_allocations strategy req.max_tokens
    let l1_tokens := allocations.1
    let l2_tokens := allocations.2.1
    let l3_tokens := allocations.2.2
    let l1_batches := levels.filterMap (fun level =>
      match level with
      | .immediate => some (get_l1_contexts l1_cache l1_tokens)
      | _ => none)
    let task_results := levels.filterMap (fun level =>
      match level with
      | .immediate => none
      | .shortTerm => some (l2_search.map (retrieve_from_level est l2_tokens))
      | .longTerm => some (l3_search.map (retrieve_from_level est l3_tokens)))
    let task_batches := task_results.filterMap (fun r =>
      match r with
      | .ok contexts => some contexts
      | .error _ => none)
    let all_contexts := l1_batches.flatten ++ task_batches.flatten
    let cache_hits :=
      (levels.filter (fun level => decide (level = .immediate))).length
    let total_searched := (l1_batches.map List.length).sum
      + (task_batches.map List.length).sum
    let deduped := deduplicate_contexts all_contexts
    let ranked := rank_contexts w current_time deduped
    let truncated := truncate_by_budget req.max_tokens ranked
    let final_contexts := truncated.1
    let total_tokens := truncated.2
    let avg_relevance : ℝ :=
      if final_contexts.isEmpty then 0
      else (final_contexts.map (fun c => c.relevance_score)).sum
        / (final_contexts.length : ℝ)
    .ok { contexts := final_contexts,
          total_tokens := total_tokens,
          metadata :=
            { level_distribution := fun level =>
                (final_contexts.filter (fun c => decide (c.level = level))).length,
              avg_relevance := avg_relevance,
              cache_hits := cache_hits,
              total_searched := total_searched } }

/-- State owned by the manager: the three per-level vector-store
collections (`contexts_immediate`, `contexts_shortterm`,
`contexts_longterm`) as in-memory point lists, and the L1 cache. -/
structure Stores : Type where
  immediate : List VectorPoint
  short_term : List VectorPoint
  long_term : List VectorPoint
  l1 : List Context

/-- Collection of a level. -/
def Stores.get (s : Stores) : ContextLevel → List VectorPoint
  | .immediate => s.immediate
  | .shortTerm => s.short_term
  | .longTerm => s.long_term

/-- Replace the collection of a level. -/
def Stores.set (s : Stores) (level : ContextLevel)
    (points : List VectorPoint) : Stores :=
  match level with
  | .immediate => { s with immediate := points }
  | .shortTerm => { s with short_term := points }
  | .longTerm => { s with long_term := points }

/-- VectorStore::insert_points with upsert semantics keyed by id: an
existing point with the same id is replaced in place, a new one is
appended. -/
def upsert_points (points : List VectorPoint)
    (collection : List VectorPoint) : List VectorPoint :=
  points.foldl
    (fun acc p =>
      if acc.any (fun q => q.id = p.id) then
        acc.map (fun q => if q.id = p.id then p else q)
      else acc ++ [p])
    collection

/-- VectorStore::get_point: first point with the given id, if any. -/
def get_point (collection : List VectorPoint) (id : Nat) :
    Option VectorPoint :=
  collection.find? (fun p => p.id == id)

/-- Validate the keys of a metadata map in order (the manager's
`for key in metadata.keys() { validate_metadata_key(key)? }`). -/
def validate_metadata_keys (metadata : List (String × Int)) :
    Except ValidationError Unit :=
  match metadata with
  | [] => .ok ()
  | (k, _) :: rest =>
    match validate_metadata_key k with
    | .error e => .error e
    | .ok _ => validate_metadata_keys rest

/-- Result of `store_context`: the minted id and the updated stores on
success, plus the embedding-client side of the call (cache, breaker,
issued HTTP requests). -/
structure StoreResult : Type where
  result : Except ContextError (Nat × Stores)
  cache : Option (List (String × List ℚ))
  breaker : Option CircuitBreakerState
  calls : Nat

/-- HiRAGManagerV2::store_context. External inputs: the scripted
embedding-API exchange (through `embed_single`), the freshly minted id
`fresh_id` (the `Uuid::new_v4()`), and the wall-clock `timestamp`
(`Utc::now().timestamp()`). Validates the text and the metadata keys,
embeds, checks the 1024 dimension, writes the point through to the
level's collection, and seeds the L1 cache when the level is
Immediate. -/
def store_context (est : TokenEstimatorConfig) (l1_size : Nat)
    (hash : String → String) (cfg : CircuitBreakerConfig)
    (max_retries now : Nat) (fresh_id : Nat) (timestamp : Int)
    (stores : Stores) (text : List Char) (level : ContextLevel)
    (metadata : List (String × Int))
    (cache : Option (List (String × List ℚ)))
    (cb : Option CircuitBreakerState) (outcomes : List ApiOutcome) :
    StoreResult :=
  match validate_text text with
  | .error e => ⟨.error (.validation e), cache, cb, 0⟩
  | .ok _ =>
  match validate_metadata_keys metadata with
  | .error e => ⟨.error (.validation e), cache, cb, 0⟩
  | .ok _ =>
    let er := embed_single hash cfg max_retries now text cache cb outcomes
    match er.result with
    | .error e => ⟨.error e, er.cache, er.breaker, er.calls⟩
    | .ok embedding =>
      match validate_vector_dimension embedding.length 1024 with
      | .error e => ⟨.error (.validation e), er.cache, er.breaker, er.calls⟩
      | .ok _ =>
        let token_count := estimate est text
        let point : VectorPoint :=
          { id := fresh_id, vector := embedding,
            payload := { text := text, level := level,
                         timestamp := timestamp, agent_id := "default",
                         session_id := none, metadata := metadata } }
        let stores := stores.set level
          (upsert_points [point] (stores.get level))
        let context : Context :=
          { id := fresh_id, text := text, level := level,
            relevance_score := 1, token_count := token_count,
            timestamp := timestamp, metadata := metadata }
        let stores :=
          if level = ContextLevel.immediate then
            { stores with l1 := update_l1_cache l1_size stores.l1 context }
          else stores
        ⟨.ok (fresh_id, stores), er.cache, er.breaker, er.calls⟩

/-- Body of the found case of `update_context`: merge the update's
metadata into the point's (last writer wins per key), refresh the
payload timestamp to `now_ts`, re-insert the point, and refresh the L1
entry when the level is Immediate. -/
def apply_update (est : TokenEstimatorConfig) (l1_size : Nat)
    (now_ts : Int) (stores : Stores) (level : ContextLevel)
    (point : VectorPoint) (metadata : List (String × Int)) : Stores :=
  let merged := metadata.foldl
    (fun m kv => insertKV m kv.1 kv.2) point.payload.metadata
  let point := { point with payload :=
    { point.payload with timestamp := now_ts, metadata := merged } }
  let stores := stores.set level
    (upsert_points [point] (stores.get level))
  if level = ContextLevel.immediate then
    let token_count := estimate est point.payload.text
    let context : Context :=
      { id := point.id, text := point.payload.text,
        level := point.payload.level, relevance_score := 1,
        token_count := token_count,
        timestamp := point.payload.timestamp,
        metadata := point.payload.metadata }
    { stores with l1 := update_l1_cache l1_size stores.l1 context }
  else stores

/-- HiRAGManagerV2::update_context: validate the metadata keys, look the
id up in the Immediate, ShortTerm, LongTerm collections in that order,
apply the update to the first hit, and fail with
`HiRAGError::StorageError("Context {id} not found")` when every
collection misses. -/
def update_context (est : TokenEstimatorConfig) (l1_size : Nat)
    (now_ts : Int) (stores : Stores) (id : Nat)
    (metadata : List (String × Int)) : Except ContextError Stores :=
  match validate_metadata_keys metadata with
  | .error e => .error (.validation e)
  | .ok _ =>
    match get_point (stores.get .immediate) id with
    | some point =>
      .ok (apply_update est l1_size now_ts stores .immediate point metadata)
    | none =>
      match get_point (stores.get .shortTerm) id with
      | some point =>
        .ok (apply_update est l1_size now_ts stores .shortTerm point metadata)
      | none =>
        match get_point (stores.get .longTerm) id with
        | some point =>
          .ok (apply_update est l1_size now_ts stores .longTerm point metadata)
        | none =>
          .error (.hirag (.storageError
            ("Context " ++ toString id ++ " not found")))

/-! ## Theorems -/

/-- From Closed with `k` consecutive failures already counted, `n` more
failures (with `k + n` reaching the threshold) drive the breaker to Open
with the failure instant recorded. -/
lemma record_failure_open_after (cfg : CircuitBreakerConfig) (now : Nat) :
    ∀ (n k : Nat) (s : CircuitBreakerState), s.state = .closed →
      s.failure_count = k → k + n = cfg.failure_threshold → 0 < n →
      ((record_failure cfg now)^[n] s).state = .opened ∧
        ((record_failure cfg now)^[n] s).last_failure_time = some now := by
  intro n
  induction n with
  | zero => intro k s _ _ _ h; exact absurd h (by simp)
  | succ m ih =>
    intro k s hst hfc hsum _
    rw [Function.iterate_succ_apply]
    rcases Nat.eq_zero_or_pos m with hm | hm
    · subst hm
      have hth : cfg.failure_threshold ≤ k + 1 := by omega
      simp [record_failure, hst, hfc, if_pos hth]
    · have hth : ¬ (cfg.failure_threshold ≤ k + 1) := by omega
      have hfs : record_failure cfg now s =
          { s with total_failures := s.total_failures + 1,
                   failure_count := k + 1 } := by
        simp [record_failure, hst, hfc, if_neg hth]
      rw [hfs]
      exact ih (k + 1) _ hst rfl (by omega) hm

/-- From HalfOpen with `k` successes already counted, `n` more successes
(with `k + n` reaching the threshold) close the breaker and clear both
counters. -/
lemma record_success_closed_after (cfg : CircuitBreakerConfig) :
    ∀ (n k : Nat) (s : CircuitBreakerState), s.state = .halfOpen →
      s.success_count = k → k + n = cfg.success_threshold → 0 < n →
      ((record_success cfg)^[n] s).state = .closed ∧
        ((record_success cfg)^[n] s).failure_count = 0 ∧
        ((record_success cfg)^[n] s).success_count = 0 := by
  intro n
  induction n with
  | zero => intro k s _ _ _ h; exact absurd h (by simp)
  | succ m ih =>
    intro k s hst hsc hsum _
    rw [Function.iterate_succ_apply]
    rcases Nat.eq_zero_or_pos m with hm | hm
    · subst hm
      have hth : cfg.success_threshold ≤ k + 1 := by omega
      simp [record_success, hst, hsc, if_pos hth]
    · have hth : ¬ (cfg.success_threshold ≤ k + 1) := by omega
      have hfs : record_success cfg s = { s with success_count := k + 1 } := by
        simp [record_success, hst, hsc, if_neg hth]
      rw [hfs]
      exact ih (k + 1) _ hst rfl (by omega) hm

/-- C2: the circuit breaker is the specified state machine: starting
Closed, `failure_threshold` consecutive `record_failure` calls with no
intervening success make the state Open with the opening instant
recorded; while Open, `allow_request` returns false until the configured
timeout has elapsed since that instant, and the first `allow_request`
after the timeout transitions to HalfOpen and returns true;
`success_threshold` `record_success` calls in HalfOpen close the breaker
with both counters cleared; a single `record_failure` in HalfOpen
returns the state to Open. -/
theorem circuit_breaker_state_machine (cfg : CircuitBreakerConfig)
    (hf : 0 < cfg.failure_threshold) (hs : 0 < cfg.success_threshold) :
    (∀ (now : Nat) (s : CircuitBreakerState), s.state = .closed →
      s.failure_count = 0 →
      ((record_failure cfg now)^[cfg.failure_threshold] s).state = .opened ∧
        ((record_failure cfg now)^[cfg.failure_threshold] s).last_failure_time
          = some now)
    ∧ (∀ (now t : Nat) (s : CircuitBreakerState), s.state = .opened →
        s.last_failure_time = some t → now - t < cfg.timeout →
        allow_request cfg now s =
          (false, { s with total_calls := s.total_calls + 1 }))
    ∧ (∀ (now t : Nat) (s : CircuitBreakerState), s.state = .opened →
        s.last_failure_time = some t → cfg.timeout ≤ now - t →
        allow_request cfg now s =
          (true, { s with state := .halfOpen, success_count := 0,
                          total_calls := s.total_calls + 1 }))
    ∧ (∀ (s : CircuitBreakerState), s.state = .halfOpen →
        s.success_count = 0 →
        ((record_success cfg)^[cfg.success_threshold] s).state = .closed ∧
          ((record_success cfg)^[cfg.success_threshold] s).failure_count = 0 ∧
          ((record_success cfg)^[cfg.success_threshold] s).success_count = 0)
    ∧ (∀ (now : Nat) (s : CircuitBreakerState), s.state = .halfOpen →
        (record_failure cfg now s).state = .opened) := by
  refine ⟨?_, ?_, ?_, ?_, ?_⟩
  · intro now s hst hfc
    exact record_failure_open_after cfg now cfg.failure_threshold 0 s hst hfc
      (by omega) hf
  · intro now t s hst hlf hcond
    have hneg : ¬ (cfg.timeout ≤ now - t) := by omega
    simp [allow_request, hst, hlf, if_neg hneg]
  · intro now t s hst hlf hcond
    simp [allow_request, hst, hlf, if_pos hcond]
  · intro s hst hsc
    exact record_success_closed_after cfg cfg.success_threshold 0 s hst hsc
      (by omega) hs
  · intro now s hst
    simp [record_failure, hst]

/-- Concrete witness instantiation for the breaker state machine with
thresholds 3 and 2 and timeout 60. -/
theorem circuit_breaker_state_machine_witness :
    ((record_failure ⟨3, 2, 60, 60⟩ 5)^[3] CircuitBreaker.new).state
      = .opened
    ∧ allow_request ⟨3, 2, 60, 60⟩ 50 ⟨.opened, 3, 0, some 5, 4, 3⟩
        = (false, ⟨.opened, 3, 0, some 5, 5, 3⟩)
    ∧ allow_request ⟨3, 2, 60, 60⟩ 70 ⟨.opened, 3, 0, some 5, 4, 3⟩
        = (true, ⟨.halfOpen, 3, 0, some 5, 5, 3⟩)
    ∧ ((record_success ⟨3, 2, 60, 60⟩)^[2] ⟨.halfOpen, 3, 0, some 5, 5, 3⟩).state
        = .closed
    ∧ (record_failure ⟨3, 2, 60, 60⟩ 9 ⟨.halfOpen, 3, 0, some 5, 5, 3⟩).state
        = .opened := by
  have h := circuit_breaker_state_machine ⟨3, 2, 60, 60⟩ (by decide) (by decide)
  exact ⟨(h.1 5 CircuitBreaker.new rfl rfl).1,
         h.2.1 50 5 _ rfl rfl (by decide),
         h.2.2.1 70 5 _ rfl rfl (by decide),
         (h.2.2.2.1 _ rfl rfl).1,
         h.2.2.2.2 9 _ rfl⟩

/-! ### C3: breaker interaction of failed embedding calls -/

/-- Breaker configuration of the C3 scenario: `failure_threshold = 3`. -/
def c3_cfg : CircuitBreakerConfig := ⟨3, 2, 60, 60⟩

/-- One `embed_single` call of the C3 scenario: cache disabled,
`max_retries = 0`, a single scripted HTTP attempt. -/
def c3_call (cb : Option CircuitBreakerState) (outcome : ApiOutcome) :
    EmbedSingleResult :=
  embed_single (fun _ => "00") c3_cfg 0 10 ['h', 'i'] none cb [outcome]

/-- First, second, third and fourth calls, every API attempt answered
with HTTP 500. -/
def c3_r1 : EmbedSingleResult := c3_call (some CircuitBreaker.new) (.http 500 none)
/-- Second HTTP-500 call. -/
def c3_r2 : EmbedSingleResult := c3_call c3_r1.breaker (.http 500 none)
/-- Third HTTP-500 call. -/
def c3_r3 : EmbedSingleResult := c3_call c3_r2.breaker (.http 500 none)
/-- Fourth call after three HTTP-500 failures. -/
def c3_r4 : EmbedSingleResult := c3_call c3_r3.breaker (.http 500 none)

/-- First, second, third and fourth calls, every API attempt failing at
the transport layer. -/
def c3_t1 : EmbedSingleResult := c3_call (some CircuitBreaker.new) .transportError
/-- Second transport-failure call. -/
def c3_t2 : EmbedSingleResult := c3_call c3_t1.breaker .transportError
/-- Third transport-failure call. -/
def c3_t3 : EmbedSingleResult := c3_call c3_t2.breaker .transportError
/-- Fourth call after three transport failures. -/
def c3_t4 : EmbedSingleResult := c3_call c3_t3.breaker .transportError

/-- C3 (code evaluation at the failing input): with
`failure_threshold = 3`, three consecutive `embed_single` calls whose
API attempts are answered with a non-OK HTTP response (500) leave the
breaker Closed with a failure count of 1 — `make_request` records a
success on the breaker before inspecting the status, resetting the
count each time — so the fourth call still issues a network request
instead of failing fast. By contrast, three transport-level failures do
open the breaker, and the fourth call then returns ServiceUnavailable
without any network request, as the claim describes. -/
theorem embed_single_http_failures_leave_breaker_closed :
    c3_r3.breaker = some ⟨.closed, 1, 0, none, 3, 3⟩
    ∧ c3_r4.calls = 1
    ∧ c3_r4.result = .error (.embedding (.apiError "API error 500"))
    ∧ c3_t3.breaker = some ⟨.opened, 3, 0, some 10, 3, 3⟩
    ∧ c3_t4.calls = 0
    ∧ c3_t4.result =
        .error (.embedding (.serviceUnavailable "Circuit breaker open")) := by
  decide

/-! ### C4: the embedding cache key mismatch -/

/-- Stand-in for the SHA-256 hex digest in the C4 scenario (its exact
value is irrelevant: only the `"emb_"` framing of `cache_key` matters). -/
def c4_hash : String → String := fun _ => "00"

/-- First `embed_single("hi")` call against an empty enabled cache, the
API answering 200 with embedding `[1]`. -/
def c4_r1 : EmbedSingleResult :=
  embed_single c4_hash c3_cfg 0 10 ['h', 'i'] (some []) none
    [.http 200 (some [[1]])]

/-- Second, identical `embed_single("hi")` call against the cache state
the first call produced. -/
def c4_r2 : EmbedSingleResult :=
  embed_single c4_hash c3_cfg 0 10 ['h', 'i'] c4_r1.cache none
    [.http 200 (some [[1]])]

/-- C4 (code evaluation at the failing input): the first call succeeds
and stores the embedding under the fingerprint key `"emb_" ++ digest`,
but the cache lookup uses the raw text, so the second identical call
misses the cache and issues a second network request (`calls = 1`
instead of the claimed 0). -/
theorem embed_single_repeated_calls_hit_api_again :
    c4_r1.result = .ok [1]
    ∧ c4_r1.cache = some [("emb_00", [1])]
    ∧ c4_r1.calls = 1
    ∧ c4_r2.result = .ok [1]
    ∧ c4_r2.calls = 1 := by
  decide

/-! ### C10: whitespace-only text is rejected as empty input -/

/-- Trimming a whitespace-only text yields the empty text. -/
lemma rust_trim_eq_nil (text : List Char)
    (h : ∀ c ∈ text, rust_is_whitespace c = true) : rust_trim text = [] := by
  have h1 : text.dropWhile rust_is_whitespace = [] :=
    List.dropWhile_eq_nil_iff.mpr h
  simp [rust_trim, h1]

/-- C10: a text that is non-empty but consists only of whitespace is
rejected by `validate_text` with `EmptyInput` (validation trims before
the emptiness check), and both `store_context` and `embed_single`
propagate that error without touching the stores, the cache, the breaker
or the network. -/
theorem whitespace_only_text_rejected (text : List Char)
    (_hne : text ≠ [])
    (hws : ∀ c ∈ text, rust_is_whitespace c = true) :
    validate_text text = .error .emptyInput
    ∧ (∀ (est : TokenEstimatorConfig) (l1_size : Nat)
        (hash : String → String) (cfg : CircuitBreakerConfig)
        (max_retries now fresh_id : Nat) (timestamp : Int) (stores : Stores)
        (level : ContextLevel) (metadata : List (String × Int))
        (cache : Option (List (String × List ℚ)))
        (cb : Option CircuitBreakerState) (outcomes : List ApiOutcome),
        store_context est l1_size hash cfg max_retries now fresh_id timestamp
            stores text level metadata cache cb outcomes
          = ⟨.error (.validation .emptyInput), cache, cb, 0⟩)
    ∧ (∀ (hash : String → String) (cfg : CircuitBreakerConfig)
        (max_retries now : Nat)
        (cache : Option (List (String × List ℚ)))
        (cb : Option CircuitBreakerState) (outcomes : List ApiOutcome),
        embed_single hash cfg max_retries now text cache cb outcomes
          = ⟨.error (.validation .emptyInput), cache, cb, 0⟩) := by
  have hv : validate_text text = .error .emptyInput := by
    simp [validate_text, rust_trim_eq_nil text hws]
  refine ⟨hv, ?_, ?_⟩
  · intro est l1_size hash cfg max_retries now fresh_id timestamp stores
      level metadata cache cb outcomes
    simp [store_context, hv]
  · intro hash cfg max_retries now cache cb outcomes
    simp [embed_single, hv]

/-- Concrete witness for the whitespace rejection at the text
consisting of one space and one tab. -/
theorem whitespace_only_text_rejected_witness :
    validate_text [' ', '\t'] = .error .emptyInput
    ∧ store_context (.characterBased 4) 10 (fun _ => "00") ⟨3, 2, 60, 60⟩
        0 0 1 100 ⟨[], [], [], []⟩ [' ', '\t'] .immediate [] (some []) none []
        = ⟨.error (.validation .emptyInput), some [], none, 0⟩
    ∧ embed_single (fun _ => "00") ⟨3, 2, 60, 60⟩ 0 0 [' ', '\t']
        (some []) none []
        = ⟨.error (.validation .emptyInput), some [], none, 0⟩ := by
  have h := whitespace_only_text_rejected [' ', '\t'] (by decide) (by decide)
  exact ⟨h.1, h.2.1 _ _ _ _ _ _ _ _ _ _ _ _ _ _, h.2.2 _ _ _ _ _ _ _⟩

/-! ### C1: budget conservation of retrieve_context -/

/-- Total token count of a context list. -/
def sum_tokens (l : List Context) : Nat :=
  (l.map (fun c => c.token_count)).sum

/-- The final truncation fold keeps its running total equal to the sum of
the kept contexts' token counts and never exceeds the budget. -/
lemma truncate_fold_spec (max_tokens : Nat) :
    ∀ (l : List Context) (acc : List Context × Nat),
      acc.2 = sum_tokens acc.1 → acc.2 ≤ max_tokens →
      (List.foldl
        (fun (acc : List Context × Nat) c =>
          if acc.2 + c.token_count ≤ max_tokens then
            (acc.1 ++ [c], acc.2 + c.token_count)
          else acc)
        acc l).2
        = sum_tokens (List.foldl
            (fun (acc : List Context × Nat) c =>
              if acc.2 + c.token_count ≤ max_tokens then
                (acc.1 ++ [c], acc.2 + c.token_count)
              else acc)
            acc l).1
      ∧ (List.foldl
          (fun (acc : List Context × Nat) c =>
            if acc.2 + c.token_count ≤ max_tokens then
              (acc.1 ++ [c], acc.2 + c.token_count)
            else acc)
          acc l).2 ≤ max_tokens := by
  intro l
  induction l with
  | nil => intro acc h1 h2; exact ⟨h1, h2⟩
  | cons c rest ih =>
    intro acc h1 h2
    simp only [List.foldl_cons]
    by_cases hc : acc.2 + c.token_count ≤ max_tokens
    · rw [if_pos hc]
      refine ih _ ?_ hc
      simp [sum_tokens, h1]
    · rw [if_neg hc]
      exact ih acc h1 h2

/-- Truncation never exceeds the budget, and reports the exact sum. -/
lemma truncate_by_budget_spec (max_tokens : Nat) (ranked : List Context) :
    (truncate_by_budget max_tokens ranked).2
      = sum_tokens (truncate_by_budget max_tokens ranked).1
    ∧ (truncate_by_budget max_tokens ranked).2 ≤ max_tokens := by
  have h := truncate_fold_spec max_tokens ranked ([], 0) (by simp [sum_tokens])
    (Nat.zero_le _)
  exact h

/-- C1: every response `retrieve_context` accepts and returns satisfies
budget conservation: its `total_tokens` equals the sum of `token_count`
over the contexts it contains, and is at most the request's
`max_tokens`. -/
theorem retrieve_context_budget (strategy : RetrievalStrategy)
    (w : RankingWeights) (est : TokenEstimatorConfig) (current_time : Int)
    (req : ContextRequest) (query_embedding : Except ContextError (List ℚ))
    (l1_cache : List Context)
    (l2_search l3_search : Except ContextError (List SearchResult))
    (resp : ContextResponse)
    (h : retrieve_context strategy w est current_time req query_embedding
        l1_cache l2_search l3_search = .ok resp) :
    resp.total_tokens = sum_tokens resp.contexts
      ∧ resp.total_tokens ≤ req.max_tokens := by
  rw [retrieve_context.eq_def] at h
  split at h
  · exact absurd h (by simp)
  split at h
  · exact absurd h (by simp)
  split at h
  · exact absurd h (by simp)
  simp only [Except.ok.injEq] at h
  subst h
  exact truncate_by_budget_spec req.max_tokens _

/-- Concrete retrieval run for the budget-conservation witness: a valid
query, budget 50, Immediate level only, empty L1 cache. -/
noncomputable def c1_run : Except ContextError ContextResponse :=
  retrieve_context ⟨3/10, 2/5, 3/10⟩ ⟨0.5, 0.2, 0.2, 0.1⟩
    (.characterBased 4) 1000 ⟨['x'], 50, [.immediate]⟩ (.ok []) [] (.ok [])
    (.ok [])

/-- The response of the witness run. -/
noncomputable def c1_resp : ContextResponse :=
  { contexts := [], total_tokens := 0,
    metadata := { level_distribution := fun _ => 0, avg_relevance := 0,
                  cache_hits := 1, total_searched := 0 } }

/-- Concrete witness for budget conservation. -/
theorem retrieve_context_budget_witness :
    c1_run = .ok c1_resp
    ∧ c1_resp.total_tokens = sum_tokens c1_resp.contexts
    ∧ c1_resp.total_tokens ≤ 50 := by
  have heq : c1_run = .ok c1_resp := rfl
  have h := retrieve_context_budget ⟨3/10, 2/5, 3/10⟩ ⟨0.5, 0.2, 0.2, 0.1⟩
    (.characterBased 4) 1000 ⟨['x'], 50, [.immediate]⟩ (.ok []) [] (.ok [])
    (.ok []) c1_resp heq
  exact ⟨heq, h.1, h.2⟩

/-! ### C7: the frequency score is not clamped -/

/-- A context whose metadata records 1000 accesses. -/
def c7_ctx : Context :=
  { id := 1, text := ['a'], level := .immediate, relevance_score := 0,
    token_count := 1, timestamp := 0, metadata := [("access_count", 1000)] }

/-- C7 counterexample: at `access_count = 1000` the frequency component
exceeds 1 — the source formula log10(1 + n) / log10(101) is not clamped
to [0, 1]. -/
theorem frequency_score_exceeds_one : 1 < calculate_frequency_score c7_ctx := by
  have hac : access_count_of c7_ctx = 1000 := by decide
  have h101 : (0 : ℝ) < Real.logb 10 101 :=
    Real.logb_pos (by norm_num) (by norm_num)
  have hlt : Real.logb 10 101 < Real.logb 10 1001 :=
    Real.logb_lt_logb (by norm_num) (by norm_num) (by norm_num)
  have : calculate_frequency_score c7_ctx
      = Real.logb 10 1001 / Real.logb 10 101 := by
    simp only [calculate_frequency_score, hac]
    rw [if_pos (by norm_num)]
    norm_num
  rw [this]
  exact (one_lt_div h101).mpr hlt

/-- C7 amended: the frequency component is 0 when the `access_count`
metadata entry is absent or not a positive integer, equals
log10(1 + access_count) / log10(101) when positive, stays within (0, 1]
for access counts in 1..100 — but exceeds 1 for every access count above
100, because the source applies no clamping. -/
theorem frequency_score_characterisation (c : Context) :
    (lookupKV c.metadata "access_count" = none → access_count_of c = 0)
    ∧ (∀ v : Int, lookupKV c.metadata "access_count" = some v → v ≤ 0 →
        access_count_of c = 0)
    ∧ (access_count_of c = 0 → calculate_frequency_score c = 0)
    ∧ (0 < access_count_of c →
        calculate_frequency_score c
          = Real.logb 10 (1 + (access_count_of c : ℝ)) / Real.logb 10 101)
    ∧ (0 < access_count_of c → access_count_of c ≤ 100 →
        calculate_frequency_score c ≤ 1)
    ∧ (100 < access_count_of c → 1 < calculate_frequency_score c) := by
  have h101 : (0 : ℝ) < Real.logb 10 101 :=
    Real.logb_pos (by norm_num) (by norm_num)
  have hformula : 0 < access_count_of c →
      calculate_frequency_score c
        = Real.logb 10 (1 + (access_count_of c : ℝ)) / Real.logb 10 101 := by
    intro hpos
    simp only [calculate_frequency_score]
    rw [if_pos (by exact_mod_cast hpos)]
  refine ⟨?_, ?_, ?_, hformula, ?_, ?_⟩
  · intro h; simp [access_count_of, h]
  · intro v hv hle
    rcases lt_or_eq_of_le hle with hlt | heq
    · simp [access_count_of, hv, json_as_u64, hlt]
    · subst heq; simp [access_count_of, hv, json_as_u64]
  · intro h
    simp only [calculate_frequency_score, h]
    norm_num
  · intro hpos hle
    rw [hformula hpos]
    rw [div_le_one h101]
    have h1 : (1 : ℝ) + (access_count_of c : ℝ) ≤ 101 := by
      have : (access_count_of c : ℝ) ≤ 100 := by exact_mod_cast hle
      linarith
    exact Real.logb_le_logb_of_le (by norm_num) (by positivity) h1
  · intro hgt
    have hpos : 0 < access_count_of c := by omega
    rw [hformula hpos]
    rw [one_lt_div h101]
    have h1 : (101 : ℝ) < 1 + (access_count_of c : ℝ) := by
      have : (100 : ℝ) < (access_count_of c : ℝ) := by exact_mod_cast hgt
      linarith
    exact Real.logb_lt_logb (by norm_num) (by norm_num) h1

/-- Concrete witnesses for the frequency-score characterisation: an
access count of 100 yields a score of at most 1, an access count of 1000
yields a score above 1. -/
theorem frequency_score_characterisation_witness :
    access_count_of c7_ctx = 1000
    ∧ 1 < calculate_frequency_score c7_ctx
    ∧ access_count_of
        { id := 2, text := ['a'], level := .immediate, relevance_score := 0,
          token_count := 1, timestamp := 0,
          metadata := [("access_count", 100)] } = 100
    ∧ calculate_frequency_score
        { id := 2, text := ['a'], level := .immediate, relevance_score := 0,
          token_count := 1, timestamp := 0,
          metadata := [("access_count", 100)] } ≤ 1 := by
  refine ⟨by decide, ?_, by decide, ?_⟩
  · exact (frequency_score_characterisation c7_ctx).2.2.2.2.2 (by decide)
  · exact (frequency_score_characterisation _).2.2.2.2.1 (by decide) (by decide)

/-! ### C5: dynamic reallocation is computed but not used at query time -/

/-- The allocation strategy of the C5 example: (0.3, 0.4, 0.3). -/
def c5_strategy : RetrievalStrategy := ⟨3/10, 2/5, 3/10⟩

/-- Token estimator for the C5 example, making the single-character L3
payload cost 301 tokens. -/
def c5_est : TokenEstimatorConfig := .characterBased (1/301)

/-- The one L3 search hit of the C5 example: a 301-token context at the
top of the LongTerm results. -/
def c5_result : SearchResult :=
  { id := 7, score := 0.9,
    payload := some { text := ['a'], level := .longTerm, timestamp := 900,
                      agent_id := "default", session_id := none,
                      metadata := [] } }

/-- The C5 retrieval run: allocations (0.3, 0.4, 0.3), `max_tokens` 1000,
L1 and L2 with zero available contexts, L3 offering the 301-token hit. -/
noncomputable def c5_run : Except ContextError ContextResponse :=
  retrieve_context c5_strategy ⟨0.5, 0.2, 0.2, 0.1⟩ c5_est 1000
    ⟨['x'], 1000, []⟩ (.ok []) [] (.ok []) (.ok [c5_result])

/-- The (empty) response the C5 run produces. -/
noncomputable def c5_resp : ContextResponse :=
  { contexts := [], total_tokens := 0,
    metadata := { level_distribution := fun _ => 0, avg_relevance := 0,
                  cache_hits := 1, total_searched := 0 } }

/-- C5 counterexample: `calculate_dynamic_allocations` does produce
(500, 0, 500) on the example — but `retrieve_context` uses the static
`calculate_allocations`, which gives (300, 400, 300), so the L3 budget
actually applied is 300: the 301-token top L3 hit is dropped and the
response is empty, whereas under the claimed effective allocation of
500 it would have been retrieved. -/
theorem dynamic_allocation_unused_at_query_time :
    calculate_dynamic_allocations c5_strategy 1000 1 0 1 = (500, 0, 500)
    ∧ calculate_allocations c5_strategy 1000 = (300, 400, 300)
    ∧ c5_run = .ok c5_resp
    ∧ (retrieve_from_level c5_est 500 [c5_result]).length = 1 := by
  have halloc : calculate_allocations c5_strategy 1000 = (300, 400, 300) := by
    norm_num [calculate_allocations, c5_strategy]
    decide
  have hest : estimate c5_est ['a'] = 301 := by
    norm_num [estimate, c5_est]
    decide
  have hl3 : retrieve_from_level c5_est
      (calculate_allocations c5_strategy 1000).2.2 [c5_result] = [] := by
    rw [halloc]
    show retrieve_from_level_aux c5_est 300 0 [c5_result] = []
    simp only [retrieve_from_level_aux, c5_result, hest]
    norm_num
  have hl3' : retrieve_from_level c5_est 500 [c5_result]
      = [{ id := 7, text := ['a'], level := .longTerm, relevance_score := 0.9,
           token_count := 301, timestamp := 900, metadata := [] }] := by
    show retrieve_from_level_aux c5_est 500 0 [c5_result] = _
    simp only [retrieve_from_level_aux, c5_result, hest]
    norm_num
  refine ⟨?_, halloc, ?_, ?_⟩
  · norm_num [calculate_dynamic_allocations, halloc]
  · show retrieve_context c5_strategy ⟨0.5, 0.2, 0.2, 0.1⟩ c5_est 1000
      ⟨['x'], 1000, []⟩ (.ok []) [] (.ok []) (.ok [c5_result]) = .ok c5_resp
    rw [retrieve_context.eq_def]
    simp only [Except.map, hl3]
    rfl
  · rw [hl3']
    rfl

/-- C5 amended: `calculate_dynamic_allocations` redistributes the
allocation of a tier with zero available contexts equally (by integer
division) among the tiers that have contexts: with L2 empty and L1, L3
nonempty, L1 and L3 each gain half of L2's static allocation. (The
`retrieve_context` pipeline, however, calls the static
`calculate_allocations` only — see the counterexample.) -/
theorem dynamic_allocations_redistribute (strategy : RetrievalStrategy)
    (max_tokens l1_available l3_available : Nat)
    (h1 : 0 < l1_available) (h3 : 0 < l3_available) :
    calculate_dynamic_allocations strategy max_tokens l1_available 0
        l3_available
      = ((calculate_allocations strategy max_tokens).1
            + (calculate_allocations strategy max_tokens).2.1 / 2,
         0,
         (calculate_allocations strategy max_tokens).2.2
            + (calculate_allocations strategy max_tokens).2.1 / 2) := by
  have h1' : l1_available ≠ 0 := by omega
  have h3' : l3_available ≠ 0 := by omega
  rcases Nat.eq_zero_or_pos (calculate_allocations strategy max_tokens).2.1
    with hz | hp
  · simp [calculate_dynamic_allocations, h1', h3', hz]
  · simp [calculate_dynamic_allocations, h1', h3', hp]

/-- Concrete witness for the redistribution at the example inputs. -/
theorem dynamic_allocations_redistribute_witness :
    calculate_dynamic_allocations c5_strategy 1000 5 0 5 = (500, 0, 500) := by
  have h := dynamic_allocations_redistribute c5_strategy 1000 5 5
    (by decide) (by decide)
  rw [h]
  norm_num [calculate_allocations, c5_strategy]
  decide

/-! ### Generic facts about the stable sort -/

section StableSort

variable {α : Type} (lt : α → α → Bool)

/-- Membership in an insertion. -/
lemma mem_insert_by (x : α) (l : List α) (a : α) :
    a ∈ insert_by lt x l ↔ a = x ∨ a ∈ l := by
  induction l with
  | nil => simp [insert_by]
  | cons y ys ih =>
    simp only [insert_by]
    by_cases h : lt x y
    · rw [if_pos h]
      simp [List.mem_cons]
    · rw [if_neg h]
      simp only [List.mem_cons, ih]
      tauto

variable {R : α → α → Prop}

/-- Inserting into a list preserves pairwise order, for a comparator
that is the strict version of `R`. -/
lemma insert_by_pairwise (hlt : ∀ a b, lt a b = true → R a b)
    (hnlt : ∀ a b, lt a b = false → R b a)
    (htrans : ∀ a b c, R a b → R b c → R a c) (x : α) :
    ∀ l : List α, l.Pairwise R → (insert_by lt x l).Pairwise R := by
  intro l
  induction l with
  | nil => intro _; simp [insert_by]
  | cons y ys ih =>
    intro hp
    rw [List.pairwise_cons] at hp
    simp only [insert_by]
    by_cases h : lt x y
    · rw [if_pos h]
      refine List.Pairwise.cons ?_ (List.Pairwise.cons hp.1 hp.2)
      intro b hb
      rcases List.mem_cons.mp hb with hby | hbys
      · exact hby ▸ hlt x y h
      · exact htrans x y b (hlt x y h) (hp.1 b hbys)
    · rw [if_neg h]
      refine List.Pairwise.cons ?_ (ih hp.2)
      intro b hb
      rcases (mem_insert_by lt x ys b).mp hb with hbx | hbys
      · exact hbx ▸ hnlt x y (Bool.not_eq_true _ ▸ h)
      · exact hp.1 b hbys

/-- The fold underlying the stable sort preserves pairwise order. -/
lemma foldl_insert_by_pairwise (hlt : ∀ a b, lt a b = true → R a b)
    (hnlt : ∀ a b, lt a b = false → R b a)
    (htrans : ∀ a b c, R a b → R b c → R a c) :
    ∀ (l acc : List α), acc.Pairwise R →
      (List.foldl (fun acc x => insert_by lt x acc) acc l).Pairwise R := by
  intro l
  induction l with
  | nil => intro acc h; exact h
  | cons x xs ih =>
    intro acc h
    exact ih _ (insert_by_pairwise lt hlt hnlt htrans x acc h)

/-- The stable sort sorts with respect to `R`. -/
lemma stable_sort_by_pairwise (hlt : ∀ a b, lt a b = true → R a b)
    (hnlt : ∀ a b, lt a b = false → R b a)
    (htrans : ∀ a b c, R a b → R b c → R a c) (l : List α) :
    (stable_sort_by lt l).Pairwise R :=
  foldl_insert_by_pairwise lt hlt hnlt htrans l [] List.Pairwise.nil

/-- Insertion is a permutation of consing. -/
lemma insert_by_perm (x : α) (l : List α) :
    List.Perm (insert_by lt x l) (x :: l) := by
  induction l with
  | nil => simp [insert_by]
  | cons y ys ih =>
    simp only [insert_by]
    by_cases h : lt x y
    · rw [if_pos h]
    · rw [if_neg h]
      exact (ih.cons y).trans (List.Perm.swap x y ys)

/-- The sorting fold permutes its input onto the accumulator. -/
lemma foldl_insert_by_perm :
    ∀ (l acc : List α),
      List.Perm (List.foldl (fun acc x => insert_by lt x acc) acc l)
        (l ++ acc) := by
  intro l
  induction l with
  | nil => intro acc; simp
  | cons x xs ih =>
    intro acc
    refine (ih (insert_by lt x acc)).trans ?_
    refine List.Perm.trans
      (List.Perm.append_left xs (insert_by_perm lt x acc)) ?_
    exact List.perm_middle

/-- The stable sort is a permutation of its input. -/
lemma stable_sort_by_perm (l : List α) :
    List.Perm (stable_sort_by lt l) l := by
  have h := foldl_insert_by_perm lt l []
  simpa [stable_sort_by] using h

/-- Inserting an element smaller than everything in the accumulator
prepends it. -/
lemma insert_by_front (x : α) (acc : List α)
    (h : ∀ a ∈ acc, lt x a = true) : insert_by lt x acc = x :: acc := by
  cases acc with
  | nil => rfl
  | cons y ys => simp [insert_by, h y (List.mem_cons_self y ys)]

/-- Folding a strictly decreasing list over the insertion (every element
also below everything already accumulated) reverses it onto the
accumulator. -/
lemma foldl_insert_by_desc :
    ∀ (l acc : List α),
      (∀ z ∈ l, ∀ a ∈ acc, lt z a = true) →
      l.Pairwise (fun a b => lt b a = true) →
      List.foldl (fun acc x => insert_by lt x acc) acc l
        = l.reverse ++ acc := by
  intro l
  induction l with
  | nil => intro acc _ _; simp
  | cons x xs ih =>
    intro acc hcross hp
    rw [List.pairwise_cons] at hp
    simp only [List.foldl_cons]
    rw [insert_by_front lt x acc
      (fun a ha => hcross x (List.mem_cons_self x xs) a ha)]
    rw [ih (x :: acc) ?_ hp.2]
    · simp
    · intro z hz a ha
      rcases List.mem_cons.mp ha with hax | haacc
      · exact hax ▸ hp.1 z hz
      · exact hcross z (List.mem_cons_of_mem x hz) a haacc

/-- Stable-sorting a strictly decreasing list reverses it. -/
lemma stable_sort_by_of_desc (l : List α)
    (h : l.Pairwise (fun a b => lt b a = true)) :
    stable_sort_by lt l = l.reverse := by
  have := foldl_insert_by_desc lt l [] (by simp) h
  simpa [stable_sort_by] using this

end StableSort

/-! ### C8: ranking order and tie behaviour -/

/-- Score comparator, strict direction. -/
lemma score_lt_true {a b : Context} (h : score_lt a b = true) :
    b.relevance_score ≤ a.relevance_score :=
  le_of_lt (by simpa [score_lt] using h)

/-- Score comparator, non-strict complement. -/
lemma score_lt_false {a b : Context} (h : score_lt a b = false) :
    a.relevance_score ≤ b.relevance_score := by
  have : ¬ b.relevance_score < a.relevance_score := by
    simpa [score_lt] using h
  exact not_lt.mp this

/-- Descending-score order is transitive. -/
lemma score_ge_trans (a b c : Context)
    (h1 : b.relevance_score ≤ a.relevance_score)
    (h2 : c.relevance_score ≤ b.relevance_score) :
    c.relevance_score ≤ a.relevance_score :=
  le_trans h2 h1

/-- Inserting into a sorted accumulator appends the new element behind
the equal-score elements: filtering any score class of the insertion
either appends the new element (its own class) or leaves the class
unchanged. -/
lemma filter_insert_by_score (s : ℝ) (x : Context) :
    ∀ acc : List Context,
      acc.Pairwise (fun a b => b.relevance_score ≤ a.relevance_score) →
      (insert_by score_lt x acc).filter
          (fun c => decide (c.relevance_score = s))
        = if x.relevance_score = s
          then acc.filter (fun c => decide (c.relevance_score = s)) ++ [x]
          else acc.filter (fun c => decide (c.relevance_score = s)) := by
  intro acc
  induction acc with
  | nil =>
    intro _
    by_cases hx : x.relevance_score = s
    · simp [insert_by, List.filter, hx]
    · simp [insert_by, List.filter, hx]
  | cons y ys ih =>
    intro hp
    rw [List.pairwise_cons] at hp
    simp only [insert_by]
    by_cases h : score_lt x y
    · rw [if_pos h]
      have hxy : y.relevance_score < x.relevance_score := by
        simpa [score_lt] using h
      by_cases hx : x.relevance_score = s
      · rw [if_pos hx]
        have hfilter :
            (y :: ys).filter (fun c => decide (c.relevance_score = s))
              = [] := by
          rw [List.filter_eq_nil_iff]
          intro a ha
          rcases List.mem_cons.mp ha with hay | hays
          · subst hay
            simp only [decide_eq_true_eq]
            exact fun heq => absurd (hx ▸ heq ▸ hxy) (lt_irrefl _)
          · simp only [decide_eq_true_eq]
            intro heq
            have h2 : a.relevance_score < x.relevance_score :=
              lt_of_le_of_lt (hp.1 a hays) hxy
            rw [heq, hx] at h2
            exact lt_irrefl _ h2
        rw [List.filter_cons_of_pos (by simpa using hx), hfilter]
        simp [hfilter]
      · rw [if_neg hx]
        rw [List.filter_cons_of_neg (by simpa using hx)]
    · rw [if_neg h]
      have htail := ih hp.2
      by_cases hy : y.relevance_score = s
      · rw [List.filter_cons_of_pos (by simpa using hy),
            List.filter_cons_of_pos (by simpa using hy), htail]
        by_cases hx : x.relevance_score = s
        · rw [if_pos hx, if_pos hx]
          simp
        · rw [if_neg hx, if_neg hx]
      · rw [List.filter_cons_of_neg (by simpa using hy),
            List.filter_cons_of_neg (by simpa using hy), htail]

/-- The sorting fold preserves every score class of sorted state plus
input, in order. -/
lemma filter_foldl_insert_score (s : ℝ) :
    ∀ (l acc : List Context),
      acc.Pairwise (fun a b => b.relevance_score ≤ a.relevance_score) →
      (List.foldl (fun acc x => insert_by score_lt x acc) acc l).filter
          (fun c => decide (c.relevance_score = s))
        = acc.filter (fun c => decide (c.relevance_score = s))
            ++ l.filter (fun c => decide (c.relevance_score = s)) := by
  intro l
  induction l with
  | nil => intro acc _; simp
  | cons x xs ih =>
    intro acc hp
    simp only [List.foldl_cons]
    rw [ih _ (insert_by_pairwise score_lt (fun a b => score_lt_true)
      (fun a b => score_lt_false) score_ge_trans x acc hp)]
    rw [filter_insert_by_score s x acc hp]
    by_cases hx : x.relevance_score = s
    · rw [if_pos hx, List.filter_cons_of_pos (by simpa using hx)]
      simp
    · rw [if_neg hx, List.filter_cons_of_neg (by simpa using hx)]

/-- C8 amended: `rank_contexts` returns the rescored contexts in
descending composite-score order; contexts with equal scores keep their
relative input order (the sort is stable) — `created_at` is not used as
a tiebreaker. The order is expressed by pairwise descending scores, the
stability by the preservation of every score class. -/
theorem rank_contexts_sorted_and_stable (w : RankingWeights)
    (current_time : Int) (contexts : List Context) :
    (rank_contexts w current_time contexts).Pairwise
        (fun a b => b.relevance_score ≤ a.relevance_score)
    ∧ List.Perm (rank_contexts w current_time contexts)
        (contexts.map (fun c =>
          { c with relevance_score := calculate_score w current_time c }))
    ∧ ∀ s : ℝ,
        (rank_contexts w current_time contexts).filter
            (fun c => decide (c.relevance_score = s))
          = (contexts.map (fun c =>
              { c with relevance_score := calculate_score w current_time c })).filter
              (fun c => decide (c.relevance_score = s)) := by
  refine ⟨?_, ?_, ?_⟩
  · exact stable_sort_by_pairwise score_lt (fun a b => score_lt_true)
      (fun a b => score_lt_false) score_ge_trans _
  · exact stable_sort_by_perm score_lt _
  · intro s
    have h := filter_foldl_insert_score s
      (contexts.map (fun c =>
        { c with relevance_score := calculate_score w current_time c }))
      [] List.Pairwise.nil
    simpa [rank_contexts, stable_sort_by] using h

/-- Ranking weights isolating similarity: ties in composite score then
depend only on the (equal) similarity scores. -/
def c8_w : RankingWeights := ⟨1, 0, 0, 0⟩

/-- Older context of the C8 tie (created at 100). -/
def c8_a : Context :=
  { id := 1, text := ['a'], level := .immediate, relevance_score := 0.8,
    token_count := 1, timestamp := 100, metadata := [] }

/-- Newer context of the C8 tie (created at 200). -/
def c8_b : Context :=
  { id := 2, text := ['b'], level := .immediate, relevance_score := 0.8,
    token_count := 1, timestamp := 200, metadata := [] }

/-- C8 counterexample: two contexts with equal composite score (weights
(1,0,0,0), similarity 0.8 each), the older one first in the input, come
back in input order — timestamps [100, 200] — not in the claimed
descending `created_at` order [200, 100]. -/
theorem rank_contexts_ties_ignore_created_at :
    (rank_contexts c8_w 1000 [c8_a, c8_b]).map (fun c => c.timestamp)
      = [100, 200] := by
  have hsa : calculate_score c8_w 1000 c8_a = 0.8 := by
    norm_num [calculate_score, c8_w, c8_a]
  have hsb : calculate_score c8_w 1000 c8_b = 0.8 := by
    norm_num [calculate_score, c8_w, c8_b]
  have key : score_lt
      { c8_b with relevance_score := calculate_score c8_w 1000 c8_b }
      { c8_a with relevance_score := calculate_score c8_w 1000 c8_a }
      = false := by
    norm_num [score_lt, hsa, hsb]
  simp only [rank_contexts, List.map_cons, List.map_nil, stable_sort_by,
    List.foldl_cons, List.foldl_nil, insert_by, key, Bool.false_eq_true,
    if_false]
  simp [c8_a, c8_b]

/-! ### C6: L1 capacity and eviction order -/

/-- One `update_l1_cache` step on a fresh context that is newer than
everything cached: the new context is prepended and, when the capacity
is exceeded, exactly the oldest entry is evicted — the result is the
newest-first prefix of length `l1_size`. -/
lemma update_l1_cache_step (k : Nat) (c : Context) (acc : List Context)
    (hlen : acc.length ≤ k)
    (hts : ∀ a ∈ acc, a.timestamp < c.timestamp)
    (hdesc : acc.Pairwise (fun a b => b.timestamp < a.timestamp))
    (hid : ∀ a ∈ acc, a.id ≠ c.id)
    (hids : acc.Pairwise (fun a b => a.id ≠ b.id)) :
    update_l1_cache k acc c = (c :: acc).take k := by
  have hfilter : acc.filter (fun a => decide (a.id ≠ c.id)) = acc := by
    rw [List.filter_eq_self]
    intro a ha
    simpa using hid a ha
  simp only [update_l1_cache, hfilter]
  by_cases hcase : k < (c :: acc).length
  · rw [if_pos hcase]
    have hlen' : acc.length = k := by
      simp only [List.length_cons] at hcase
      omega
    have hsorted : stable_sort_by
        (fun a b => decide (a.timestamp < b.timestamp)) (c :: acc)
        = (c :: acc).reverse := by
      apply stable_sort_by_of_desc
      refine List.Pairwise.cons ?_ ?_
      · intro a ha
        simpa using hts a ha
      · refine hdesc.imp ?_
        intro a b h
        simpa using h
    rw [hsorted]
    have hm : (c :: acc).length - k = 1 := by
      simp only [List.length_cons]
      omega
    rw [hm]
    rcases List.eq_nil_or_concat acc with rfl | ⟨front, d, rfl⟩
    · simp only [List.length_nil] at hlen'
      subst hlen'
      simp
    · simp only [List.concat_eq_append] at hlen hts hdesc hid hids hcase hlen' hsorted hm ⊢
      have hrev : (c :: (front ++ [d])).reverse
          = d :: (front.reverse ++ [c]) := by
        simp
      rw [hrev]
      simp only [List.take_succ_cons, List.take_zero, List.map_cons,
        List.map_nil]
      have hpair := List.pairwise_append.mp hids
      have hcd : c.id ≠ d.id :=
        fun h => hid d (List.mem_append_right front (by simp)) h.symm
      have hfront : ∀ a ∈ front, a.id ≠ d.id := by
        intro a ha
        exact hpair.2.2 a ha d (by simp)
      have hkeep : (c :: front).filter
          (fun a => decide (a.id ∉ [d.id])) = c :: front := by
        rw [List.filter_eq_self]
        intro a ha
        rcases List.mem_cons.mp ha with rfl | haf
        · simpa using hcd
        · simpa using hfront a haf
      have hsplit : c :: (front ++ [d]) = (c :: front) ++ [d] := by simp
      rw [hsplit, List.filter_append, hkeep]
      have hdrop : [d].filter (fun a => decide (a.id ∉ [d.id])) = [] := by
        simp
      rw [hdrop, List.append_nil]
      have hlenf : (c :: front).length = k := by
        have hk := hlen'
        simp only [List.length_append, List.length_cons, List.length_nil]
          at hk ⊢
        omega
      rw [← hlenf, List.take_left]
  · rw [if_neg hcase]
    simp only [List.length_cons, not_lt] at hcase
    exact (List.take_of_length_le (by simpa using hcase)).symm

/-- C6: after any sequence of Immediate-tier stores with fresh ids and
strictly increasing creation timestamps, the L1 cache holds exactly the
`l1_size` most recently created contexts (newest first), and in
particular never more than `l1_size` items: eviction removes the oldest
timestamps first. -/
theorem l1_capacity_and_recency (l1_size : Nat) (cs : List Context)
    (hids : (cs.map (fun c => c.id)).Pairwise (· ≠ ·))
    (hts : (cs.map (fun c => c.timestamp)).Pairwise (· < ·)) :
    cs.foldl (update_l1_cache l1_size) [] = cs.reverse.take l1_size
    ∧ (cs.foldl (update_l1_cache l1_size) []).length ≤ l1_size := by
  rw [List.pairwise_map] at hids hts
  have main : cs.foldl (update_l1_cache l1_size) []
      = cs.reverse.take l1_size := by
    induction cs using List.reverseRecOn with
    | nil => simp
    | append_singleton p c ih =>
      have hpids := (List.pairwise_append.mp hids).1
      have hpts := (List.pairwise_append.mp hts).1
      have hcross_id : ∀ a ∈ p, a.id ≠ c.id := by
        intro a ha
        exact (List.pairwise_append.mp hids).2.2 a ha c (by simp)
      have hcross_ts : ∀ a ∈ p, a.timestamp < c.timestamp := by
        intro a ha
        exact (List.pairwise_append.mp hts).2.2 a ha c (by simp)
      rw [List.foldl_append, List.foldl_cons, List.foldl_nil, ih hpids hpts]
      have hstep := update_l1_cache_step l1_size c (p.reverse.take l1_size)
        ?_ ?_ ?_ ?_ ?_
      · rw [hstep]
        rw [List.reverse_append]
        simp only [List.reverse_cons, List.reverse_nil, List.nil_append,
          List.cons_append]
        cases l1_size with
        | zero => simp
        | succ m =>
          rw [List.take_succ_cons, List.take_succ_cons, List.take_take]
          rw [Nat.min_eq_left (Nat.le_succ m)]
      · exact le_trans (List.length_take_le _ _) (le_refl _)
      · intro a ha
        exact hcross_ts a (List.mem_reverse.mp (List.mem_of_mem_take ha))
      · exact ((List.pairwise_reverse.mpr (hpts.imp fun h => h)).sublist
          (List.take_sublist _ _)).imp fun h => h
      · intro a ha
        exact hcross_id a (List.mem_reverse.mp (List.mem_of_mem_take ha))
      · exact ((List.pairwise_reverse.mpr (hpids.imp fun h => h.symm)).sublist
          (List.take_sublist _ _))
  refine ⟨main, ?_⟩
  rw [main]
  exact le_trans (List.length_take_le _ _) (le_refl _)

/-- Concrete witness for L1 capacity: `l1_size = 2`, three stores with
timestamps 100, 101, 102 retain the two newest contexts. -/
theorem l1_capacity_and_recency_witness :
    [({ id := 1, text := ['a'], level := .immediate, relevance_score := 1,
        token_count := 1, timestamp := 100, metadata := [] } : Context),
     { id := 2, text := ['b'], level := .immediate, relevance_score := 1,
        token_count := 1, timestamp := 101, metadata := [] },
     { id := 3, text := ['c'], level := .immediate, relevance_score := 1,
        token_count := 1, timestamp := 102, metadata := [] }].foldl
        (update_l1_cache 2) []
      = [{ id := 3, text := ['c'], level := .immediate, relevance_score := 1,
           token_count := 1, timestamp := 102, metadata := [] },
         { id := 2, text := ['b'], level := .immediate, relevance_score := 1,
           token_count := 1, timestamp := 101, metadata := [] }] := by
  have h := l1_capacity_and_recency 2
    [{ id := 1, text := ['a'], level := .immediate, relevance_score := 1,
       token_count := 1, timestamp := 100, metadata := [] },
     { id := 2, text := ['b'], level := .immediate, relevance_score := 1,
       token_count := 1, timestamp := 101, metadata := [] },
     { id := 3, text := ['c'], level := .immediate, relevance_score := 1,
       token_count := 1, timestamp := 102, metadata := [] }]
    (by simp) (by simp)
  exact h.1

/-! ### C9: update_context error and merge behaviour -/

/-- Lookup after an insert: the inserted key reads back the inserted
value, other keys are unaffected. -/
lemma lookupKV_insertKV {α : Type} (l : List (String × α)) (k q : String)
    (v : α) :
    lookupKV (insertKV l k v) q = if q = k then some v else lookupKV l q := by
  induction l with
  | nil =>
    by_cases h : q = k
    · simp [insertKV, lookupKV, h]
    · rw [if_neg h]
      simp only [insertKV, lookupKV]
      rw [if_neg (by simpa using fun hh : k = q => h hh.symm)]
  | cons p rest ih =>
    by_cases hp : p.1 = k
    · simp only [insertKV]
      rw [if_pos (by simpa using hp)]
      by_cases h : q = k
      · simp [lookupKV, h]
      · rw [if_neg h]
        simp only [lookupKV]
        have c1 : ¬ ((k == q) = true) := by
          simpa using fun hh : k = q => h hh.symm
        have c2 : ¬ ((p.1 == q) = true) := by
          simpa using fun hh : p.1 = q => h (hh.symm.trans hp)
        rw [if_neg c1, if_neg c2]
    · simp only [insertKV]
      rw [if_neg (by simpa using hp)]
      by_cases hq : p.1 = q
      · have h : ¬ q = k := fun hh => hp (hq.trans hh)
        rw [if_neg h]
        simp [lookupKV, hq]
      · simp only [lookupKV]
        have c2 : ¬ ((p.1 == q) = true) := by simpa using hq
        rw [if_neg c2, if_neg c2, ih]

/-- A key absent from every pair looks up to `none`. -/
lemma lookupKV_eq_none {α : Type} (l : List (String × α)) (k : String)
    (h : ∀ p ∈ l, p.1 ≠ k) : lookupKV l k = none := by
  induction l with
  | nil => rfl
  | cons p rest ih =>
    simp only [lookupKV]
    rw [if_neg (by simpa using h p (List.mem_cons_self p rest))]
    exact ih (fun q hq => h q (List.mem_cons_of_mem p hq))

/-- Folding a metadata update map over `insertKV` is a per-key
last-writer-wins merge: a key present in the update reads the update's
value, any other key keeps the old value. -/
lemma lookupKV_foldl_insertKV {α : Type} (updates : List (String × α)) :
    ∀ (old : List (String × α)) (k : String),
      (updates.map Prod.fst).Pairwise (· ≠ ·) →
      lookupKV (updates.foldl (fun m kv => insertKV m kv.1 kv.2) old) k
        = (lookupKV updates k).or (lookupKV old k) := by
  induction updates with
  | nil => intro old k _; simp [lookupKV]
  | cons kv rest ih =>
    intro old k hdk
    rw [List.map_cons, List.pairwise_cons] at hdk
    simp only [List.foldl_cons]
    rw [ih _ k hdk.2]
    by_cases hk : k = kv.1
    · have hnone : lookupKV rest k = none := by
        apply lookupKV_eq_none
        intro p hp
        have hne := hdk.1 p.1 (List.mem_map_of_mem Prod.fst hp)
        exact fun hh => hne (hk ▸ hh).symm
      rw [hnone, lookupKV_insertKV, if_pos hk]
      simp only [lookupKV]
      rw [if_pos (by simpa using hk.symm)]
      simp
    · have hc : ¬ ((kv.1 == k) = true) := by
        simpa using fun hh : kv.1 = k => hk hh.symm
      cases hr : lookupKV rest k with
      | some v =>
        simp only [lookupKV]
        rw [if_neg hc, hr]
        simp
      | none =>
        simp only [lookupKV]
        rw [lookupKV_insertKV, if_neg hk, if_neg hc, hr]

/-- Upserting a point makes it readable under its id. -/
lemma find_map_replace (p : VectorPoint) :
    ∀ col : List VectorPoint, col.any (fun q => q.id = p.id) = true →
      List.find? (fun q => q.id == p.id)
          (col.map (fun q => if q.id = p.id then p else q)) = some p := by
  intro col
  induction col with
  | nil => intro h; simp at h
  | cons q rest ih =>
    intro h
    simp only [List.any_cons, Bool.or_eq_true, decide_eq_true_eq] at h
    simp only [List.map_cons]
    by_cases hq : q.id = p.id
    · rw [if_pos hq]
      simp [List.find?]
    · rw [if_neg hq]
      rw [List.find?_cons_of_neg _ (by simpa using hq)]
      exact ih (by simpa [hq] using h)

/-- get_point after upserting a single point yields that point. -/
lemma get_point_upsert_self (col : List VectorPoint) (p : VectorPoint) :
    get_point (upsert_points [p] col) p.id = some p := by
  simp only [upsert_points, List.foldl_cons, List.foldl_nil]
  by_cases h : col.any (fun q => q.id = p.id)
  · rw [if_pos h]
    exact find_map_replace p col h
  · rw [if_neg h]
    simp only [get_point]
    have hnone : List.find? (fun q => q.id == p.id) col = none := by
      rw [List.find?_eq_none]
      intro q hq
      simp only [List.any_eq_true, decide_eq_true_eq] at h
      simpa using fun hh => h ⟨q, hq, hh⟩
    rw [List.find?_append, hnone]
    simp [List.find?]

/-- Collection update of a level reads back. -/
lemma Stores.get_set (s : Stores) (level : ContextLevel)
    (points : List VectorPoint) : (s.set level points).get level = points := by
  cases level <;> rfl

/-- The point as re-inserted by `apply_update`: timestamp refreshed,
metadata merged last-writer-wins. -/
def updated_point (now_ts : Int) (metadata : List (String × Int))
    (point : VectorPoint) : VectorPoint :=
  let merged := metadata.foldl (fun m kv => insertKV m kv.1 kv.2)
    point.payload.metadata
  { point with payload :=
    { point.payload with timestamp := now_ts, metadata := merged } }

/-- Diagnostic: is an update result the dedicated `ContextNotFound`
error? -/
def is_context_not_found : Except ContextError Stores → Bool
  | .error (.hirag (.contextNotFound _)) => true
  | _ => false

/-- C9 counterexample: updating a missing id fails with
`HiRAGError::StorageError("Context 7 not found")` — not with the
dedicated `ContextNotFound` variant the claim (and the spec's
`HiRAG.NotFound`) names. -/
theorem update_context_missing_id_storage_error :
    update_context (.characterBased 4) 10 500 ⟨[], [], [], []⟩ 7 []
        = .error (.hirag (.storageError "Context 7 not found"))
    ∧ is_context_not_found
        (update_context (.characterBased 4) 10 500 ⟨[], [], [], []⟩ 7 [])
        = false := by
  exact ⟨rfl, rfl⟩

/-- C9 amended: with valid metadata keys, `update_context` fails — with
`HiRAGError::StorageError("Context {id} not found")`, not the dedicated
`ContextNotFound` variant — exactly when the id is absent from all three
tier collections, searching Immediate, ShortTerm, LongTerm in that
order; on the first hit it merges the update's metadata last-writer-wins
per key, refreshes the payload timestamp, and re-inserts the point so it
reads back under its id. -/
theorem update_context_spec (est : TokenEstimatorConfig) (l1_size : Nat)
    (now_ts : Int) (stores : Stores) (id : Nat)
    (metadata : List (String × Int))
    (hkeys : validate_metadata_keys metadata = .ok ()) :
    (get_point (stores.get .immediate) id = none →
      get_point (stores.get .shortTerm) id = none →
      get_point (stores.get .longTerm) id = none →
      update_context est l1_size now_ts stores id metadata
        = .error (.hirag (.storageError
            ("Context " ++ toString id ++ " not found"))))
    ∧ (∀ point, get_point (stores.get .immediate) id = some point →
        update_context est l1_size now_ts stores id metadata
          = .ok (apply_update est l1_size now_ts stores .immediate point
              metadata))
    ∧ (∀ point, get_point (stores.get .immediate) id = none →
        get_point (stores.get .shortTerm) id = some point →
        update_context est l1_size now_ts stores id metadata
          = .ok (apply_update est l1_size now_ts stores .shortTerm point
              metadata))
    ∧ (∀ point, get_point (stores.get .immediate) id = none →
        get_point (stores.get .shortTerm) id = none →
        get_point (stores.get .longTerm) id = some point →
        update_context est l1_size now_ts stores id metadata
          = .ok (apply_update est l1_size now_ts stores .longTerm point
              metadata))
    ∧ (∀ (level : ContextLevel) (point : VectorPoint),
        get_point ((apply_update est l1_size now_ts stores level point
            metadata).get level) point.id
          = some (updated_point now_ts metadata point))
    ∧ ((metadata.map Prod.fst).Pairwise (· ≠ ·) →
        ∀ (old : List (String × Int)) (k : String),
          lookupKV (metadata.foldl (fun m kv => insertKV m kv.1 kv.2) old) k
            = (lookupKV metadata k).or (lookupKV old k)) := by
  refine ⟨?_, ?_, ?_, ?_, ?_, ?_⟩
  · intro h1 h2 h3
    simp only [update_context, hkeys, h1, h2, h3]
  · intro point h1
    simp only [update_context, hkeys, h1]
  · intro point h1 h2
    simp only [update_context, hkeys, h1, h2]
  · intro point h1 h2 h3
    simp only [update_context, hkeys, h1, h2, h3]
  · intro level point
    cases level <;>
      simp [apply_update, updated_point, Stores.get, Stores.set,
        get_point_upsert_self]
  · intro hdk old k
    exact lookupKV_foldl_insertKV metadata old k hdk

/-- The stored point of the C9 witness (id 7, ShortTerm). -/
def c9_point : VectorPoint :=
  { id := 7, vector := [1],
    payload := { text := ['h'], level := .shortTerm, timestamp := 100,
                 agent_id := "default", session_id := none,
                 metadata := [("a", 1), ("b", 2)] } }

/-- Stores of the C9 witness: id 7 lives in the ShortTerm collection. -/
def c9_stores : Stores := ⟨[], [c9_point], [], []⟩

/-- Concrete witness: updating id 7 with `{b ↦ 9, c ↦ 3}` succeeds via
the ShortTerm hit, merges last-writer-wins, and refreshes the
timestamp. -/
theorem update_context_spec_witness :
    update_context (.characterBased 4) 10 500 c9_stores 7 [("b", 9), ("c", 3)]
      = .ok (apply_update (.characterBased 4) 10 500 c9_stores .shortTerm
          c9_point [("b", 9), ("c", 3)])
    ∧ lookupKV (([("b", 9), ("c", 3)] : List (String × Int)).foldl
        (fun m kv => insertKV m kv.1 kv.2) [("a", 1), ("b", 2)]) "b"
      = some 9
    ∧ lookupKV (([("b", 9), ("c", 3)] : List (String × Int)).foldl
        (fun m kv => insertKV m kv.1 kv.2) [("a", 1), ("b", 2)]) "a"
      = some 1
    ∧ get_point ((apply_update (.characterBased 4) 10 500 c9_stores
          .shortTerm c9_point [("b", 9), ("c", 3)]).get .shortTerm) 7
      = some (updated_point 500 [("b", 9), ("c", 3)] c9_point) := by
  have h := update_context_spec (.characterBased 4) 10 500 c9_stores 7
    [("b", 9), ("c", 3)] (by decide)
  refine ⟨h.2.2.1 c9_point rfl rfl, ?_, ?_, h.2.2.2.2.1 .shortTerm c9_point⟩
  · exact h.2.2.2.2.2 (by decide) [("a", 1), ("b", 2)] "b"
  · exact h.2.2.2.2.2 (by decide) [("a", 1), ("b", 2)] "a"

end HiRAG
